import Mathlib

/-!
Shallow embedding of the image-enhancer front end:
the `fileToBase64` encoder (src/utils/imageUtils.ts) and the view-state
controller of the main component (`handleImageUpload`, `handleEnhanceClick`,
`isButtonDisabled`).  The browser's `FileReader` and the remote edit client
(`editImageWithGemini`, external to this repository) are modelled as oracle
inputs: each call site receives the value the external collaborator would
deliver.  Machine state is the React component's six `useState` cells plus
three instrumentation fields recording externally visible effects (the
object-URL handles created by `URL.createObjectURL`, and a counter of started
encode/submit attempts).
-/

namespace ImageEnhancer

/-- A user-selected file: the fields of the browser `File` object the code
reads (`file.type`); the name is carried along for concreteness. -/
structure MFile where
  name : String
  type : String
deriving DecidableEq, Repr

/-- Outcome of the `FileReader` read inside `fileToBase64`: either `onload`
fired with `reader.result` a string, or `onerror` fired with an event. -/
inductive ReadResult where
  | loaded (result : String)
  | failed (event : String)
deriving DecidableEq, Repr

/-- Result of the `fileToBase64` promise: resolution with base64 content and
mime type, rejection with a constructed `Error` message, or rejection that
propagates the reader's error event. -/
inductive EncodeResult where
  | ok (base64 : String) (mimeType : String)
  | errMsg (message : String)
  | errEvent (event : String)
deriving DecidableEq, Repr

/-- Split a character list at every occurrence of `sep`.  Structural recursion
so that the kernel can evaluate it on concrete inputs. -/
def splitOnChar (sep : Char) : List Char → List (List Char)
  | [] => [[]]
  | c :: cs =>
      if c = sep then [] :: splitOnChar sep cs
      else
        match splitOnChar sep cs with
        | [] => [[c]]
        | t :: ts => (c :: t) :: ts

/-- JavaScript `s.split(sep)` for a one-character separator: the list of
segments of `s` between occurrences of `sep`.  Agrees with `String.splitOn`
on a one-character separator; stated on the character list so it computes. -/
def jsSplit (s : String) (sep : Char) : List String :=
  (splitOnChar sep s.data).map String.mk

/-- JavaScript `s.startsWith(p)`: `p.data` is a list prefix of `s.data`.
Agrees with `String.startsWith`; stated on character lists so it computes. -/
def jsStartsWith (s p : String) : Bool :=
  p.data.isPrefixOf s.data

/-- Message of the `Error` thrown by `fileToBase64` when no base64 body could
be extracted from the data URL. -/
def decodeFailMsg : String := "Failed to read base64 string from file."

/-- `fileToBase64` from src/utils/imageUtils.ts, with the reader's outcome
supplied as an oracle.  On load it computes `result.split(',')[1]`: the element
at index 1 of the comma split, i.e. the segment between the first and second
comma.  JavaScript truthiness makes both a missing element (`undefined`) and
the empty string take the rejection branch. -/
def fileToBase64 (file : MFile) (read : ReadResult) : EncodeResult :=
  match read with
  | .failed e => .errEvent e
  | .loaded result =>
      match (jsSplit result ',')[1]? with
      | some s => if s = "" then .errMsg decodeFailMsg else .ok s file.type
      | none => .errMsg decodeFailMsg

/-- Everything after the first occurrence of `sep`, or `none` when `sep` does
not occur. -/
def afterChar (sep : Char) : List Char → Option (List Char)
  | [] => none
  | c :: cs => if c = sep then some cs else afterChar sep cs

/-- Modelled from the spec: "split on the first comma; the substring after the
comma is the returned content".  This is the content the specification says the
encoder returns, to be compared against what `fileToBase64` computes. -/
def afterFirstComma (s : String) : Option String :=
  (afterChar ',' s.data).map String.mk

/-- The component's state: the six `useState` cells (`originalFile`,
`originalImageUrl`, `editedImageUrl`, `prompt`, `isLoading`, `error`) plus
instrumentation.  Object URLs are modelled as numeric handles: `nextHandle` is
the next fresh handle `URL.createObjectURL` would return, `liveHandles` lists
every handle created and not revoked (the code contains no
`URL.revokeObjectURL` call).  `attempts` counts enhancement attempts that
actually started the encode-then-submit pipeline. -/
structure AppState where
  originalFile : Option MFile
  originalImageUrl : Option Nat
  editedImageUrl : Option String
  prompt : String
  isLoading : Bool
  error : Option String
  nextHandle : Nat
  liveHandles : List Nat
  attempts : Nat
deriving DecidableEq, Repr

/-- The initial render: every cell at its `useState` initialiser. -/
def initState : AppState :=
  { originalFile := none
    originalImageUrl := none
    editedImageUrl := none
    prompt := ""
    isLoading := false
    error := none
    nextHandle := 0
    liveHandles := []
    attempts := 0 }

/-- Error message set when a non-image file is chosen. -/
def validationMsg : String := "Please upload a valid image file."

/-- `handleImageUpload`: `event.target.files?.[0]` is the head of the selected
file list; no file means no state change.  A file whose declared type does not
start with "image/" only sets the validation error.  Otherwise the file is
stored, a fresh object URL is created for it (and never revoked), and the
edited image and error are cleared. -/
def handleImageUpload (files : List MFile) (s : AppState) : AppState :=
  match files.head? with
  | none => s
  | some file =>
      if jsStartsWith file.type "image/" then
        { s with
            originalFile := some file
            originalImageUrl := some s.nextHandle
            liveHandles := s.nextHandle :: s.liveHandles
            nextHandle := s.nextHandle + 1
            editedImageUrl := none
            error := none }
      else
        { s with error := some validationMsg }

/-- `isButtonDisabled = !originalFile || !prompt || isLoading` (the empty
string is falsy). -/
def isButtonDisabled (s : AppState) : Bool :=
  s.originalFile.isNone || s.prompt == "" || s.isLoading

/-- Error message of the early guard inside `handleEnhanceClick`. -/
def guardMsg : String := "Please upload an image and enter a prompt."

/-- Fixed prefix prepended in the catch block: `Failed to enhance image. `. -/
def enhanceErrHead : String := "Failed to enhance image. "

/-- Message of the `Error` thrown when the edit client returned no image. -/
def noImageMsg : String := "The API did not return an image. Please try a different prompt."

/-- Fallback used when the caught value is not an `Error` instance. -/
def unknownErrMsg : String := "An unknown error occurred."

/-- The synchronous part of `handleEnhanceClick` up to the first `await`: the
early guard (`!originalFile || !prompt`) sets an error and returns; otherwise
loading is set, error and edited image cleared, and the encode-then-submit
pipeline starts (counted in `attempts`). -/
def handleEnhanceClickStart (s : AppState) : AppState :=
  if s.originalFile.isNone || s.prompt == "" then
    { s with error := some guardMsg }
  else
    { s with
        isLoading := true
        error := none
        editedImageUrl := none
        attempts := s.attempts + 1 }

/-- Joint outcome of the two awaited calls of one enhancement attempt:
`resolved v` means `fileToBase64` and `editImageWithGemini` both resolved,
with `v` the client's value (`none` models a null/undefined result);
`threw (some m)` means one of them rejected with an `Error` carrying message
`m`; `threw none` means the rejection value was not an `Error` instance
(e.g. the reader's error event). -/
inductive EnhanceOutcome where
  | resolved (v : Option String)
  | threw (msg : Option String)
deriving DecidableEq, Repr

/-- The continuation of `handleEnhanceClick` after the awaits.  The truthiness
test `if (editedBase64)` sends both a null result and the empty string to the
`throw new Error(noImageMsg)` branch; the catch block stores the prefixed
message, and the finally block clears `isLoading`. -/
def handleEnhanceClickFinish (o : EnhanceOutcome) (s : AppState) : AppState :=
  match o with
  | .resolved (some v) =>
      if v = "" then
        { s with error := some (enhanceErrHead ++ noImageMsg), isLoading := false }
      else
        { s with editedImageUrl := some ("data:image/png;base64," ++ v), isLoading := false }
  | .resolved none =>
      { s with error := some (enhanceErrHead ++ noImageMsg), isLoading := false }
  | .threw (some m) =>
      { s with error := some (enhanceErrHead ++ m), isLoading := false }
  | .threw none =>
      { s with error := some (enhanceErrHead ++ unknownErrMsg), isLoading := false }

/-- The user-level enhancement trigger: the button's `onClick` is
`handleEnhanceClick` and its `disabled` attribute is `isButtonDisabled`; a
disabled button dispatches no click event, so the trigger is the identity
whenever `isButtonDisabled` holds. -/
def triggerEnhance (s : AppState) : AppState :=
  if isButtonDisabled s then s else handleEnhanceClickStart s

/-- The user/environment actions driving the controller: a file selection
(with the chosen file list), a prompt edit, a click on the enhance button, and
the completion of an in-flight enhancement attempt with its outcome. -/
inductive Action where
  | upload (files : List MFile)
  | changePrompt (t : String)
  | clickEnhance
  | finish (o : EnhanceOutcome)
deriving DecidableEq, Repr

/-- One step of the controller.  A `finish` only has an effect while an
attempt is in flight (`isLoading`); the model keeps it total by making a
spurious completion a no-op. -/
def step (s : AppState) (a : Action) : AppState :=
  match a with
  | .upload files => handleImageUpload files s
  | .changePrompt t => { s with prompt := t }
  | .clickEnhance => triggerEnhance s
  | .finish o => if s.isLoading then handleEnhanceClickFinish o s else s

/-- The state reached from the initial render by a sequence of actions. -/
def run (as : List Action) : AppState := as.foldl step initState

/-- Whether an action is a selection of a valid image file (the head of the
file list exists and has an image type): exactly the selections for which
`handleImageUpload` creates a new object URL. -/
def isValidUpload : Action → Bool
  | .upload (f :: _) => jsStartsWith f.type "image/"
  | _ => false

/-- A concrete image file used in witnesses. -/
def catFile : MFile := { name := "cat.png", type := "image/png" }

/-- A second concrete image file. -/
def dogFile : MFile := { name := "dog.png", type := "image/png" }

/-- A concrete non-image file. -/
def pdfFile : MFile := { name := "doc.pdf", type := "application/pdf" }

/-- A loaded state (image selected, prompt entered, idle) used in witnesses:
it is `run [.upload [catFile], .changePrompt "add a hat"]`. -/
def readyState : AppState :=
  { originalFile := some catFile
    originalImageUrl := some 0
    editedImageUrl := none
    prompt := "add a hat"
    isLoading := false
    error := none
    nextHandle := 1
    liveHandles := [0]
    attempts := 0 }

/-- On a state whose enhance button is enabled, the trigger performs exactly
the synchronous start of `handleEnhanceClick`: loading set, error and edited
image cleared, one more attempt started. -/
theorem trigger_enabled (s : AppState) (h : isButtonDisabled s = false) :
    triggerEnhance s
      = { s with
            isLoading := true
            error := none
            editedImageUrl := none
            attempts := s.attempts + 1 } := by
  have h' := h
  simp only [isButtonDisabled, Bool.or_eq_false_iff] at h'
  obtain ⟨⟨h1, h2⟩, h3⟩ := h'
  unfold triggerEnhance handleEnhanceClickStart
  rw [h, h1, h2]
  simp

/-- The concatenation stored on the no-image path, as one literal. -/
theorem errHead_noImage :
    enhanceErrHead ++ noImageMsg
      = "Failed to enhance image. The API did not return an image. Please try a different prompt." := by
  decide

/-- The loading/error relation is preserved by every controller step: a step
from a state in which `isLoading` implies the error cell is empty or holds the
upload-validation message reaches a state with the same property. -/
theorem step_loading_error (s : AppState) (a : Action)
    (hs : s.isLoading = true → s.error = none ∨ s.error = some validationMsg) :
    (step s a).isLoading = true →
      (step s a).error = none ∨ (step s a).error = some validationMsg := by
  cases a with
  | upload files =>
      cases files with
      | nil => simpa [step, handleImageUpload] using hs
      | cons f fs =>
          by_cases hf : jsStartsWith f.type "image/" = true <;>
            simp [step, handleImageUpload, hf]
  | changePrompt t => simpa [step] using hs
  | clickEnhance =>
      by_cases hd : isButtonDisabled s = true
      · simpa [step, triggerEnhance, hd] using hs
      · rw [show (step s .clickEnhance) = triggerEnhance s from rfl,
          trigger_enabled s (by simpa using hd)]
        simp
  | finish o =>
      by_cases hl : s.isLoading = true
      · cases o with
        | resolved v =>
            cases v with
            | none => simp [step, hl, handleEnhanceClickFinish]
            | some str =>
                by_cases hv : str = "" <;>
                  simp [step, hl, handleEnhanceClickFinish, hv]
        | threw m => cases m <;> simp [step, hl, handleEnhanceClickFinish]
      · simp [step, hl]

/-- Folding any action list preserves the loading/error relation. -/
theorem foldl_loading_error (as : List Action) : ∀ s : AppState,
    (s.isLoading = true → s.error = none ∨ s.error = some validationMsg) →
    ((as.foldl step s).isLoading = true →
      (as.foldl step s).error = none ∨ (as.foldl step s).error = some validationMsg) := by
  induction as with
  | nil => intro s hs; simpa using hs
  | cons a as ih =>
      intro s hs
      simpa [List.foldl_cons] using ih (step s a) (step_loading_error s a hs)

/-- Each controller step creates exactly one live object URL when the action
is a valid image selection and none otherwise. -/
theorem step_liveHandles (s : AppState) (a : Action) :
    (step s a).liveHandles.length
      = s.liveHandles.length + (if isValidUpload a then 1 else 0) := by
  cases a with
  | upload files =>
      cases files with
      | nil => simp [step, handleImageUpload, isValidUpload]
      | cons f fs =>
          by_cases hf : jsStartsWith f.type "image/" = true <;>
            simp [step, handleImageUpload, isValidUpload, hf]
  | changePrompt t => simp [step, isValidUpload]
  | clickEnhance =>
      by_cases hd : isButtonDisabled s = true
      · simp [step, triggerEnhance, hd, isValidUpload]
      · rw [show (step s .clickEnhance) = triggerEnhance s from rfl,
          trigger_enabled s (by simpa using hd)]
        simp [isValidUpload]
  | finish o =>
      by_cases hl : s.isLoading = true
      · cases o with
        | resolved v =>
            cases v with
            | none => simp [step, hl, handleEnhanceClickFinish, isValidUpload]
            | some str =>
                by_cases hv : str = "" <;>
                  simp [step, hl, handleEnhanceClickFinish, hv, isValidUpload]
        | threw m => cases m <;> simp [step, hl, handleEnhanceClickFinish, isValidUpload]
      · simp [step, hl, isValidUpload]

/-- Folding any action list grows the live-handle list by one entry per valid
image selection in the list. -/
theorem foldl_liveHandles (as : List Action) : ∀ s : AppState,
    (as.foldl step s).liveHandles.length
      = s.liveHandles.length + (as.filter isValidUpload).length := by
  induction as with
  | nil => intro s; simp
  | cons a as ih =>
      intro s
      rw [List.foldl_cons, ih (step s a), step_liveHandles s a, List.filter_cons]
      by_cases ha : isValidUpload a = true <;> (simp [ha]; try omega)

/-- C1: when the original image is unset, or the prompt is empty, or an
enhancement is already loading, the enhancement trigger leaves the state
identical (every field, the started-attempt counter included), so no encode or
submit call is issued. -/
theorem trigger_guard_noop (s : AppState)
    (h : s.originalFile = none ∨ s.prompt = "" ∨ s.isLoading = true) :
    triggerEnhance s = s := by
  have hd : isButtonDisabled s = true := by
    rcases h with h | h | h <;> simp [isButtonDisabled, h]
  simp [triggerEnhance, hd]

/-- Witness for C1: the guard applies to the initial state and is a no-op
there. -/
theorem trigger_guard_noop_inst :
    (initState.originalFile = none ∨ initState.prompt = "" ∨ initState.isLoading = true) ∧
    triggerEnhance initState = initState :=
  ⟨Or.inl rfl, trigger_guard_noop initState (Or.inl rfl)⟩

/-- C2 counterexample: after selecting a valid image, entering a prompt,
clicking enhance, and then selecting a pdf while the attempt is in flight, the
reachable state has `isLoading` true and a non-null error message, refuting
the claimed invariant. -/
theorem loading_and_error_both_set :
    (run [.upload [catFile], .changePrompt "add a hat", .clickEnhance,
        .upload [pdfFile]]).isLoading = true ∧
    (run [.upload [catFile], .changePrompt "add a hat", .clickEnhance,
        .upload [pdfFile]]).error ≠ none := by
  decide

/-- C2 amended: in every reachable state, `isLoading` being true implies the
error message is null or is exactly the upload-validation message (the one
message a file selection performed while an attempt is in flight can set). -/
theorem loading_error_invariant (as : List Action)
    (h : (run as).isLoading = true) :
    (run as).error = none ∨ (run as).error = some validationMsg :=
  foldl_loading_error as initState (by decide) h

/-- Witness for the amended C2 at a concrete in-flight trace. -/
theorem loading_error_invariant_inst :
    (run [.upload [catFile], .changePrompt "add a hat", .clickEnhance]).isLoading = true ∧
    ((run [.upload [catFile], .changePrompt "add a hat", .clickEnhance]).error = none ∨
      (run [.upload [catFile], .changePrompt "add a hat", .clickEnhance]).error
        = some validationMsg) :=
  ⟨by decide, loading_error_invariant _ (by decide)⟩

/-- C3 counterexample: on a read result with two commas the encoder returns
the segment between the first and second comma ("AB"), not the substring after
the first comma ("AB,CD") claimed by the spec. -/
theorem encoder_second_segment_cex :
    fileToBase64 catFile (.loaded "data:image/png;base64,AB,CD")
        = .ok "AB" "image/png" ∧
    afterFirstComma "data:image/png;base64,AB,CD" = some "AB,CD" ∧
    ("AB" : String) ≠ "AB,CD" := by
  decide

/-- C3 amended: whenever the comma split of the read result has a non-empty
element at index 1 (the segment between the first and second comma, which is
all of the string after the first comma when no second comma exists), the
encoder resolves with that segment as content and the file's own declared type
as media type. -/
theorem encoder_resolves_second_segment (f : MFile) (S t : String)
    (h1 : (jsSplit S ',')[1]? = some t) (h2 : t ≠ "") :
    fileToBase64 f (.loaded S) = .ok t f.type := by
  simp [fileToBase64, h1, h2]

/-- Witness for the amended C3 on a one-comma data URL. -/
theorem encoder_resolves_second_segment_inst :
    (jsSplit "data:image/png;base64,QUJD" ',')[1]? = some "QUJD" ∧
    ("QUJD" : String) ≠ "" ∧
    fileToBase64 catFile (.loaded "data:image/png;base64,QUJD") = .ok "QUJD" "image/png" :=
  ⟨by decide, by decide,
    encoder_resolves_second_segment catFile "data:image/png;base64,QUJD" "QUJD"
      (by decide) (by decide)⟩

/-- C4 counterexample: two consecutive valid image selections leave two live
unreleased object URLs, refuting the claim that the previous display handle is
released and at most one is ever live. -/
theorem live_handles_exceed_one :
    (run [.upload [catFile], .upload [dogFile]]).liveHandles.length = 2 ∧
    ¬ (run [.upload [catFile], .upload [dogFile]]).liveHandles.length ≤ 1 := by
  decide

/-- C4 amended: no display handle is ever released; the number of live
unreleased handles equals the number of valid image selections performed, and
so exceeds one as soon as a second valid image is selected. -/
theorem live_handles_eq_valid_uploads (as : List Action) :
    (run as).liveHandles.length = (as.filter isValidUpload).length := by
  simpa [run, initState] using foldl_liveHandles as initState

/-- Witness for the amended C4 at a concrete two-selection trace. -/
theorem live_handles_eq_valid_uploads_inst :
    (run [.upload [catFile], .upload [dogFile]]).liveHandles.length
      = ([Action.upload [catFile], Action.upload [dogFile]].filter isValidUpload).length :=
  live_handles_eq_valid_uploads [.upload [catFile], .upload [dogFile]]

/-- C5: an enhancement attempt triggered from any enabled state whose edit
client resolves with no image ends with exactly the fixed no-image error
message, no edited handle, and loading cleared. -/
theorem enhance_absent_final (s : AppState) (h : isButtonDisabled s = false) :
    (handleEnhanceClickFinish (.resolved none) (triggerEnhance s)).error
        = some "Failed to enhance image. The API did not return an image. Please try a different prompt." ∧
    (handleEnhanceClickFinish (.resolved none) (triggerEnhance s)).editedImageUrl = none ∧
    (handleEnhanceClickFinish (.resolved none) (triggerEnhance s)).isLoading = false := by
  rw [trigger_enabled s h]
  simp [handleEnhanceClickFinish, errHead_noImage]

/-- Witness for C5 at the concrete loaded state. -/
theorem enhance_absent_final_inst :
    isButtonDisabled readyState = false ∧
    ((handleEnhanceClickFinish (.resolved none) (triggerEnhance readyState)).error
        = some "Failed to enhance image. The API did not return an image. Please try a different prompt." ∧
      (handleEnhanceClickFinish (.resolved none) (triggerEnhance readyState)).editedImageUrl = none ∧
      (handleEnhanceClickFinish (.resolved none) (triggerEnhance readyState)).isLoading = false) :=
  ⟨by decide, enhance_absent_final readyState (by decide)⟩

/-- C6: an enhancement attempt whose encoder or edit client rejects ends with
the fixed prefix "Failed to enhance image. " followed by the thrown error's
message (or by the generic fallback when the thrown value carries no message),
no edited handle, and loading cleared. -/
theorem enhance_thrown_final (s : AppState) (M : String)
    (h : isButtonDisabled s = false) :
    (handleEnhanceClickFinish (.threw (some M)) (triggerEnhance s)).error
        = some ("Failed to enhance image. " ++ M) ∧
    (handleEnhanceClickFinish (.threw (some M)) (triggerEnhance s)).editedImageUrl = none ∧
    (handleEnhanceClickFinish (.threw (some M)) (triggerEnhance s)).isLoading = false ∧
    (handleEnhanceClickFinish (.threw none) (triggerEnhance s)).error
        = some ("Failed to enhance image. " ++ "An unknown error occurred.") ∧
    (handleEnhanceClickFinish (.threw none) (triggerEnhance s)).editedImageUrl = none ∧
    (handleEnhanceClickFinish (.threw none) (triggerEnhance s)).isLoading = false := by
  rw [trigger_enabled s h]
  simp [handleEnhanceClickFinish, enhanceErrHead, unknownErrMsg]

/-- Witness for C6 at the concrete loaded state with message "quota exceeded". -/
theorem enhance_thrown_final_inst :
    isButtonDisabled readyState = false ∧
    (handleEnhanceClickFinish (.threw (some "quota exceeded")) (triggerEnhance readyState)).error
        = some ("Failed to enhance image. " ++ "quota exceeded") :=
  ⟨by decide, (enhance_thrown_final readyState "quota exceeded" (by decide)).1⟩

/-- C7 counterexample: when the edit client resolves with the empty string
(a base64 value in the claim's quantification), the attempt ends with the
no-image error and no edited handle, not with the claimed data URI. -/
theorem enhance_empty_value_cex :
    (handleEnhanceClickFinish (.resolved (some "")) (triggerEnhance readyState)).editedImageUrl
        = none ∧
    (handleEnhanceClickFinish (.resolved (some "")) (triggerEnhance readyState)).editedImageUrl
        ≠ some ("data:image/png;base64," ++ "") ∧
    (handleEnhanceClickFinish (.resolved (some "")) (triggerEnhance readyState)).error
        = some "Failed to enhance image. The API did not return an image. Please try a different prompt." := by
  decide

/-- C7 amended: an enhancement attempt whose edit client resolves with a
non-empty base64 value `v` ends with the edited handle equal to
"data:image/png;base64," ++ v (media type assumed png regardless of the
original's type), a null error, and loading cleared; an empty-string
resolution is treated like an absent image. -/
theorem enhance_success_final (s : AppState) (v : String)
    (h : isButtonDisabled s = false) (hv : v ≠ "") :
    (handleEnhanceClickFinish (.resolved (some v)) (triggerEnhance s)).editedImageUrl
        = some ("data:image/png;base64," ++ v) ∧
    (handleEnhanceClickFinish (.resolved (some v)) (triggerEnhance s)).error = none ∧
    (handleEnhanceClickFinish (.resolved (some v)) (triggerEnhance s)).isLoading = false := by
  rw [trigger_enabled s h]
  simp [handleEnhanceClickFinish, hv]

/-- Witness for the amended C7 with value "BBBB". -/
theorem enhance_success_final_inst :
    isButtonDisabled readyState = false ∧ ("BBBB" : String) ≠ "" ∧
    ((handleEnhanceClickFinish (.resolved (some "BBBB")) (triggerEnhance readyState)).editedImageUrl
        = some ("data:image/png;base64," ++ "BBBB") ∧
      (handleEnhanceClickFinish (.resolved (some "BBBB")) (triggerEnhance readyState)).error = none ∧
      (handleEnhanceClickFinish (.resolved (some "BBBB")) (triggerEnhance readyState)).isLoading = false) :=
  ⟨by decide, by decide, enhance_success_final readyState "BBBB" (by decide) (by decide)⟩

/-- C8: the encoder rejects by propagating the reader's error event when the
read fails; on a loaded result it rejects with the decode error exactly when
the extracted payload (index 1 of the comma split) is missing or empty,
resolves with that payload in every other case, and never resolves with an
empty content string. -/
theorem encoder_failure_classification (f : MFile) (S e : String) :
    fileToBase64 f (.failed e) = .errEvent e ∧
    (fileToBase64 f (.loaded S) = .errMsg decodeFailMsg
        ↔ (jsSplit S ',')[1]? = none ∨ (jsSplit S ',')[1]? = some "") ∧
    (∀ t, (jsSplit S ',')[1]? = some t → t ≠ "" →
      fileToBase64 f (.loaded S) = .ok t f.type) ∧
    (∀ b m, fileToBase64 f (.loaded S) = .ok b m → b ≠ "") := by
  refine ⟨rfl, ?_, ?_, ?_⟩
  · cases hS : (jsSplit S ',')[1]? with
    | none => simp [fileToBase64, hS]
    | some t =>
        by_cases ht : t = ""
        · subst ht; simp [fileToBase64, hS]
        · simp [fileToBase64, hS, ht]
  · intro t hS ht; simp [fileToBase64, hS, ht]
  · intro b m hbm
    cases hS : (jsSplit S ',')[1]? with
    | none => simp [fileToBase64, hS] at hbm
    | some t =>
        by_cases ht : t = ""
        · subst ht; simp [fileToBase64, hS] at hbm
        · simp [fileToBase64, hS, ht] at hbm
          simp_all

/-- Witness for C8: the reader's error event is propagated verbatim. -/
theorem encoder_failure_classification_inst :
    fileToBase64 catFile (.failed "read aborted") = .errEvent "read aborted" :=
  (encoder_failure_classification catFile "x" "read aborted").1

/-- C9: selecting a file whose declared type does not begin with "image/"
sets the error to the validation message and changes nothing else — the
original file reference and its display handle keep their previous values. -/
theorem upload_invalid_type_sets_error (s : AppState) (f : MFile) (fs : List MFile)
    (h : jsStartsWith f.type "image/" = false) :
    handleImageUpload (f :: fs) s
      = { s with error := some "Please upload a valid image file." } := by
  simp [handleImageUpload, h, validationMsg]

/-- Witness for C9: selecting doc.pdf on the initial state. -/
theorem upload_invalid_type_sets_error_inst :
    jsStartsWith pdfFile.type "image/" = false ∧
    handleImageUpload [pdfFile] initState
      = { initState with error := some "Please upload a valid image file." } :=
  ⟨by decide, upload_invalid_type_sets_error initState pdfFile [] (by decide)⟩

/-- C10: a file-selection event carrying no file leaves the state untouched:
every field keeps its previous value and no error is set. -/
theorem upload_none_noop (s : AppState) : handleImageUpload [] s = s := rfl

/-- Witness for C10 at the loaded state. -/
theorem upload_none_noop_inst : handleImageUpload [] readyState = readyState :=
  upload_none_noop readyState

end ImageEnhancer
